import Mathlib

/-!
Shallow embedding of the `RepositoryExplorer` React component
(`app/components/RepositoryExplorer.tsx`) of the `b0llu/ocktokit-poc`
repository: a browser-based GitHub repository explorer/editor built on
Octokit.  The component's state hooks become a state record, each async
handler becomes a function from state to state that additionally returns
the list of REST requests it issued (its network trace), and the GitHub
REST API is an oracle parameter so that success and failure of each call
can be analysed.
-/

namespace Ocktokit

/-- Mirrors the TS union `'file' | 'dir'` used by the Contents API. -/
inductive FileType where
  | file
  | dir
deriving DecidableEq, Repr

/-- Mirrors `interface RepoFile` (a directory-listing entry). -/
structure RepoFile where
  name : String
  path : String
  type : FileType
  size : Option Nat
  sha : String
deriving DecidableEq, Repr

/-- Mirrors `interface FileContent` (the in-memory snapshot of the selected file). -/
structure FileContent where
  name : String
  path : String
  content : String
  encoding : String
  size : Nat
  type : FileType
  sha : String
deriving DecidableEq, Repr

/-- Mirrors `interface GitHubFileResponse` (a single-file Contents API response). -/
structure GitHubFileResponse where
  name : String
  path : String
  type : FileType
  content : Option String
  encoding : Option String
  size : Nat
  sha : String
deriving DecidableEq, Repr

/-- Mirrors `interface Branch`. -/
structure Branch where
  name : String
  commitSha : String
  isProtected : Bool
deriving DecidableEq, Repr

/-- A JavaScript exception: either an `Error` object carrying a message, or
any other thrown value (the `err instanceof Error` test distinguishes them). -/
inductive JsError where
  | errObj (message : String)
  | other
deriving DecidableEq, Repr

/-- `err instanceof Error ? err.message : fallback`. -/
def errMsg : JsError → String → String
  | .errObj m, _ => m
  | .other, fallback => fallback

/-- Parameters of `octokit.rest.repos.listBranches`. -/
structure BranchesParams where
  owner : String
  repo : String
deriving DecidableEq, Repr

/-- Parameters of `octokit.rest.repos.getContent`. -/
structure ContentParams where
  owner : String
  repo : String
  path : String
  ref : String
deriving DecidableEq, Repr

/-- Parameters of `octokit.rest.repos.createOrUpdateFileContents`
(the `PUT /repos/{owner}/{repo}/contents/{path}` call). -/
structure PutParams where
  owner : String
  repo : String
  path : String
  message : String
  content : String
  sha : String
  branch : String
deriving DecidableEq, Repr

/-- One REST round trip issued by the component, tagged with the `auth`
value the Octokit instance was created with. -/
inductive Request where
  | listBranches (auth : Option String) (params : BranchesParams)
  | getContent (auth : Option String) (params : ContentParams)
  | createOrUpdateFileContents (auth : Option String) (params : PutParams)
deriving DecidableEq, Repr

/-- The `owner` field of the request's parameters. -/
def Request.owner : Request → String
  | .listBranches _ p => p.owner
  | .getContent _ p => p.owner
  | .createOrUpdateFileContents _ p => p.owner

/-- The `repo` field of the request's parameters. -/
def Request.repo : Request → String
  | .listBranches _ p => p.repo
  | .getContent _ p => p.repo
  | .createOrUpdateFileContents _ p => p.repo

/-- The `auth` the Octokit instance making the request was created with. -/
def Request.auth : Request → Option String
  | .listBranches a _ => a
  | .getContent a _ => a
  | .createOrUpdateFileContents a _ => a

/-- `response.data` of `getContent`: either a directory listing (an array)
or a single file object. -/
inductive ContentData where
  | listing (files : List RepoFile)
  | single (file : GitHubFileResponse)
deriving DecidableEq, Repr

/-- The GitHub REST API as an oracle: what each endpoint returns (or throws)
for given parameters during the session under analysis. -/
structure Api where
  listBranches : BranchesParams → Except JsError (List Branch)
  getContent : ContentParams → Except JsError ContentData
  createOrUpdateFileContents : PutParams → Except JsError Unit

/-- The environment-style variables read at process start. -/
structure Env where
  githubOwner : Option String
  githubRepo : Option String
  githubToken : Option String
deriving DecidableEq, Repr

/-- JavaScript `a || b` on strings: the empty string is falsy. -/
def jsOr (a b : String) : String := if a = "" then b else a

/-- JavaScript `String.prototype.trim`: strip whitespace from both ends. -/
def jsTrim (s : String) : String :=
  String.mk (((s.toList.dropWhile Char.isWhitespace).reverse.dropWhile
    Char.isWhitespace).reverse)

/-- The session-fixed configuration: `owner`, `repo` (useState initial values,
never updated) and the `token` constant. -/
structure Config where
  owner : String
  repo : String
  token : String
deriving DecidableEq, Repr

/-- `useState(process.env.NEXT_PUBLIC_GITHUB_OWNER || 'B0llu')`,
`useState(process.env.NEXT_PUBLIC_GITHUB_REPO || 'ocktokit-poc')`,
`const token = process.env.NEXT_PUBLIC_GITHUB_TOKEN || ''`. -/
def initConfig (e : Env) : Config where
  owner := jsOr (e.githubOwner.getD "") "B0llu"
  repo := jsOr (e.githubRepo.getD "") "ocktokit-poc"
  token := jsOr (e.githubToken.getD "") ""

/-- `createOctokitInstance`: `new Octokit({ auth: token || undefined })`. -/
def authOf (cfg : Config) : Option String :=
  if cfg.token = "" then none else some cfg.token

/-- The component's useState hooks. `expandedFolders : Set<string>` is a
duplicate-free list, `folderContents : Map<string, RepoFile[]>` an
association list in insertion order. -/
structure ExplorerState where
  files : List RepoFile
  selectedFile : Option FileContent
  loading : Bool
  error : Option String
  isEditing : Bool
  editedContent : String
  commitMessage : String
  saveLoading : Bool
  branches : List Branch
  selectedBranch : String
  branchLoading : Bool
  expandedFolders : List String
  folderContents : List (String × List RepoFile)
  isMdxEditorMode : Bool
deriving DecidableEq, Repr

/-- `Set.has`. -/
def setHas (s : List String) (x : String) : Bool := s.contains x

/-- `Set.add` (no-op when present, keeps insertion order). -/
def setAdd (s : List String) (x : String) : List String :=
  if setHas s x then s else s ++ [x]

/-- `Set.delete`. -/
def setDelete (s : List String) (x : String) : List String :=
  s.filter (fun y => y ≠ x)

/-- `Map.has`. -/
def mapHas (m : List (String × List RepoFile)) (k : String) : Bool :=
  m.any (fun p => p.1 == k)

/-- `Map.get` (`undefined` becomes `none`). -/
def mapGet (m : List (String × List RepoFile)) (k : String) : Option (List RepoFile) :=
  (m.find? (fun p => p.1 == k)).map (fun p => p.2)

/-- `Map.set`: overwrite in place when the key exists, append otherwise. -/
def mapSet (m : List (String × List RepoFile)) (k : String) (v : List RepoFile) :
    List (String × List RepoFile) :=
  if mapHas m k then m.map (fun p => if p.1 == k then (k, v) else p) else m ++ [(k, v)]

/-- The base64 alphabet used by `btoa`/`atob`. -/
def base64Alphabet : List Char :=
  "ABCDEFGHIJKLMNOPQRSTUVWXYZabcdefghijklmnopqrstuvwxyz0123456789+/".toList

/-- The base64 digit for a 6-bit value. -/
def b64Char (n : Nat) : Char := base64Alphabet.getD n 'A'

/-- The 6-bit value of a base64 digit, `none` for a non-alphabet character. -/
def b64Value (c : Char) : Option Nat := base64Alphabet.findIdx? (fun d => d = c)

/-- `btoa` on the byte values of the binary string, three bytes at a time. -/
def btoaBytes : List Nat → List Char
  | [] => []
  | [b0] =>
      let n := b0 * 65536
      [b64Char (n / 262144), b64Char (n / 4096 % 64), '=', '=']
  | [b0, b1] =>
      let n := b0 * 65536 + b1 * 256
      [b64Char (n / 262144), b64Char (n / 4096 % 64), b64Char (n / 64 % 64), '=']
  | b0 :: b1 :: b2 :: rest =>
      let n := b0 * 65536 + b1 * 256 + b2
      b64Char (n / 262144) :: b64Char (n / 4096 % 64) :: b64Char (n / 64 % 64) ::
        b64Char (n % 64) :: btoaBytes rest

/-- The browser's `btoa`: base64-encode the character codes of a binary string. -/
def btoa (s : String) : String := String.mk (btoaBytes (s.toList.map Char.toNat))

/-- `atob` on the characters of a base64 string, four digits at a time;
invalid input decodes to the bytes recovered so far. -/
def atobChars : List Char → List Nat
  | c0 :: c1 :: c2 :: c3 :: rest =>
      match b64Value c0, b64Value c1 with
      | some v0, some v1 =>
          let hi := v0 * 4 + v1 / 16
          if c2 = '=' then [hi]
          else
            match b64Value c2 with
            | some v2 =>
                let mid := v1 % 16 * 16 + v2 / 4
                if c3 = '=' then [hi, mid]
                else
                  match b64Value c3 with
                  | some v3 => hi :: mid :: (v2 % 4 * 64 + v3) :: atobChars rest
                  | none => [hi, mid]
            | none => [hi]
      | _, _ => []
  | _ => []

/-- The browser's `atob`: decode a base64 string to a binary string. -/
def atob (s : String) : String := String.mk ((atobChars s.toList).map Char.ofNat)

/-- `fileData.content.replace(/\n/g, '')`. -/
def stripNewlines (s : String) : String := String.mk (s.toList.filter (fun c => c ≠ '\n'))

/-- The decoding step of `fetchFileContent`: base64-decode when the encoding
tag says so, otherwise take the content verbatim; missing content is `''`. -/
def decodeContent (f : GitHubFileResponse) : String :=
  match f.content with
  | none => ""
  | some c => if f.encoding == some "base64" then atob (stripNewlines c) else c

/-- The `FileContent` snapshot `fetchFileContent` builds from a single-file
response (`encoding` defaults to `'utf-8'`). -/
def fileContentOfResponse (f : GitHubFileResponse) : FileContent where
  name := f.name
  path := f.path
  content := decodeContent f
  encoding := f.encoding.getD "utf-8"
  size := f.size
  type := f.type
  sha := f.sha

/-- `fetchBranches`: list branches, store them, and repair `selectedBranch`
when it does not exist (prefer `main`/`master`, else the first branch). -/
def fetchBranches (cfg : Config) (api : Api) (s : ExplorerState) :
    ExplorerState × List Request :=
  let s1 := { s with branchLoading := true, error := none }
  let params : BranchesParams := { owner := cfg.owner, repo := cfg.repo }
  let req := Request.listBranches (authOf cfg) params
  match api.listBranches params with
  | .ok data =>
      let s2 := { s1 with branches := data }
      let branchNames := data.map Branch.name
      let s3 :=
        if branchNames.contains s2.selectedBranch then s2
        else
          let defaultBranch : Option String :=
            match branchNames.find? (fun n => n == "main" || n == "master") with
            | some n => some n
            | none => branchNames.head?
          match defaultBranch with
          | some db => if db = "" then s2 else { s2 with selectedBranch := db }
          | none => s2
      ({ s3 with branchLoading := false }, [req])
  | .error e =>
      ({ s1 with
          error := some (errMsg e "Failed to fetch branches")
          branchLoading := false }, [req])

/-- `fetchFolderContents`: fetch a directory listing and memoize it in the
`folderContents` map; a failure is only logged to the console. -/
def fetchFolderContents (cfg : Config) (api : Api) (s : ExplorerState)
    (folderPath : String) : ExplorerState × List Request :=
  let params : ContentParams :=
    { owner := cfg.owner, repo := cfg.repo, path := folderPath, ref := s.selectedBranch }
  let req := Request.getContent (authOf cfg) params
  match api.getContent params with
  | .ok (.listing files) =>
      ({ s with folderContents := mapSet s.folderContents folderPath files }, [req])
  | .ok (.single _) => (s, [req])
  | .error _ => (s, [req])

/-- `fetchFileContent`: fetch a single file, decode it and select it. -/
def fetchFileContent (cfg : Config) (api : Api) (s : ExplorerState)
    (filePath : String) : ExplorerState × List Request :=
  let s1 := { s with loading := true, error := none }
  let params : ContentParams :=
    { owner := cfg.owner, repo := cfg.repo, path := filePath, ref := s.selectedBranch }
  let req := Request.getContent (authOf cfg) params
  match api.getContent params with
  | .ok (.single f) =>
      let s2 :=
        if f.type == FileType.file then
          { s1 with selectedFile := some (fileContentOfResponse f) }
        else s1
      ({ s2 with loading := false }, [req])
  | .ok (.listing _) => ({ s1 with loading := false }, [req])
  | .error e =>
      ({ s1 with
          error := some (errMsg e "Failed to fetch file content")
          loading := false }, [req])

/-- `fetchRepoContents`: at the root, keep only the `content` directory,
auto-expand it and fetch its listing; elsewhere memoize the listing; a
single-file response falls through to `fetchFileContent`. -/
def fetchRepoContents (cfg : Config) (api : Api) (s : ExplorerState)
    (path : String) : ExplorerState × List Request :=
  let s1 := { s with loading := true, error := none }
  let params : ContentParams :=
    { owner := cfg.owner, repo := cfg.repo, path := path, ref := s.selectedBranch }
  let req := Request.getContent (authOf cfg) params
  match api.getContent params with
  | .ok (.listing repoFiles) =>
      if path = "" then
        match repoFiles.find? (fun f => f.name == "content" && f.type == FileType.dir) with
        | some contentFolder =>
            let s2 := { s1 with files := [contentFolder], expandedFolders := ["content"] }
            let r := fetchFolderContents cfg api s2 "content"
            ({ r.1 with loading := false }, req :: r.2)
        | none =>
            ({ s1 with
                files := []
                error := some "No \"content\" folder found in this repository"
                loading := false }, [req])
      else
        ({ s1 with
            folderContents := mapSet s1.folderContents path repoFiles
            loading := false }, [req])
  | .ok (.single fileData) =>
      if fileData.type == FileType.file then
        let r := fetchFileContent cfg api s1 fileData.path
        ({ r.1 with loading := false }, req :: r.2)
      else
        ({ s1 with loading := false }, [req])
  | .error e =>
      ({ s1 with
          error := some (errMsg e "Failed to fetch repository contents")
          loading := false }, [req])

/-- `toggleFolder`: collapse when expanded; otherwise expand, fetching the
listing first only when it is not already memoized. -/
def toggleFolder (cfg : Config) (api : Api) (s : ExplorerState)
    (folderPath : String) : ExplorerState × List Request :=
  if setHas s.expandedFolders folderPath then
    ({ s with expandedFolders := setDelete s.expandedFolders folderPath }, [])
  else if mapHas s.folderContents folderPath then
    ({ s with expandedFolders := setAdd s.expandedFolders folderPath }, [])
  else
    let r := fetchFolderContents cfg api s folderPath
    ({ r.1 with expandedFolders := setAdd s.expandedFolders folderPath }, r.2)

/-- `handleFileClick`: leave edit modes and fetch the clicked file. -/
def handleFileClick (cfg : Config) (api : Api) (s : ExplorerState)
    (filePath : String) : ExplorerState × List Request :=
  fetchFileContent cfg api { s with isEditing := false, isMdxEditorMode := false } filePath

/-- The `useEffect` on `selectedBranch`: clear the tree, the cache and the
selection whenever the branch (a non-empty string) changes. -/
def branchChangeEffect (s : ExplorerState) : ExplorerState :=
  if s.selectedBranch ≠ "" then
    { s with
        expandedFolders := []
        folderContents := []
        selectedFile := none
        isEditing := false
        isMdxEditorMode := false }
  else s

/-- The content `saveFileContent` commits: the MDX editor's markdown when in
MDX mode with a live editor ref, otherwise the plain edited text. -/
def contentToSave (s : ExplorerState) (mdxEditor : Option String) : String :=
  if s.isMdxEditorMode then
    match mdxEditor with
    | some md => md
    | none => s.editedContent
  else s.editedContent

/-- `saveFileContent`: guard on a selected file, a token and a non-blank
commit message; then PUT the base64-encoded content with the stored SHA as
optimistic-concurrency precondition, refresh the file, and leave edit mode.
`mdxEditor` is `mdxEditorRef.current?.getMarkdown()`. -/
def saveFileContent (cfg : Config) (api : Api) (s : ExplorerState)
    (mdxEditor : Option String) : ExplorerState × List Request :=
  match s.selectedFile with
  | none => ({ s with error := some "GitHub token is required to save files" }, [])
  | some file =>
      if cfg.token = "" then
        ({ s with error := some "GitHub token is required to save files" }, [])
      else if jsTrim s.commitMessage = "" then
        ({ s with error := some "Commit message is required" }, [])
      else
        let s1 := { s with saveLoading := true, error := none }
        let encodedContent := btoa (contentToSave s mdxEditor)
        let params : PutParams :=
          { owner := cfg.owner, repo := cfg.repo, path := file.path,
            message := s.commitMessage, content := encodedContent,
            sha := file.sha, branch := s.selectedBranch }
        let req := Request.createOrUpdateFileContents (authOf cfg) params
        match api.createOrUpdateFileContents params with
        | .ok _ =>
            let r := fetchFileContent cfg api s1 file.path
            ({ r.1 with
                isEditing := false
                isMdxEditorMode := false
                commitMessage := ""
                saveLoading := false }, req :: r.2)
        | .error e =>
            ({ s1 with
                error := some (errMsg e "Failed to save file")
                saveLoading := false }, [req])

/-- `startEditing`: seed the editor with the selected content and a default
commit message. -/
def startEditing (s : ExplorerState) (useMdxEditor : Bool) : ExplorerState :=
  match s.selectedFile with
  | some file =>
      { s with
          editedContent := file.content
          isEditing := true
          isMdxEditorMode := useMdxEditor
          commitMessage := "Update " ++ file.name }
  | none => s

/-- `cancelEditing`. -/
def cancelEditing (s : ExplorerState) : ExplorerState :=
  { s with
      isEditing := false
      isMdxEditorMode := false
      editedContent := ""
      commitMessage := "" }

/-- A sequence of `toggleFolder` user actions, with the concatenated trace. -/
def toggleMany (cfg : Config) (api : Api) (s : ExplorerState) :
    List String → ExplorerState × List Request
  | [] => (s, [])
  | p :: ps =>
      let r1 := toggleFolder cfg api s p
      let r2 := toggleMany cfg api r1.1 ps
      (r2.1, r1.2 ++ r2.2)

/-- Whether a request is a Contents-API fetch for path `p`. -/
def fetchesPath (p : String) : Request → Bool
  | .getContent _ q => q.path == p
  | _ => false

/-- The number of Contents-API fetches for path `p` in a trace. -/
def countFetches (p : String) (tr : List Request) : Nat :=
  (tr.filter (fetchesPath p)).length

/-- A request satisfies the session configuration: its coordinates are the
configured owner and repository, and it authenticates with the configured
token (or unauthenticated when the token is empty). -/
def usesConfig (cfg : Config) (r : Request) : Prop :=
  r.owner = cfg.owner ∧ r.repo = cfg.repo ∧ r.auth = authOf cfg

/-! Concrete fixtures used to instantiate the theorems. -/

/-- A concrete environment. -/
def testEnv : Env where
  githubOwner := some "B0llu"
  githubRepo := some "ocktokit-poc"
  githubToken := some "ghp-test-token"

/-- The configuration read from `testEnv` at process start. -/
def testCfg : Config := initConfig testEnv

/-- The initial state of the component's hooks. -/
def initState : ExplorerState where
  files := []
  selectedFile := none
  loading := false
  error := none
  isEditing := false
  editedContent := ""
  commitMessage := ""
  saveLoading := false
  branches := []
  selectedBranch := "main"
  branchLoading := false
  expandedFolders := []
  folderContents := []
  isMdxEditorMode := false

/-- An oracle on which every call throws the given error. -/
def failApi (e : JsError) : Api where
  listBranches := fun _ => .error e
  getContent := fun _ => .error e
  createOrUpdateFileContents := fun _ => .error e

/-- An oracle on which every Contents call returns the given listing. -/
def listingApi (files : List RepoFile) : Api where
  listBranches := fun _ => .ok []
  getContent := fun _ => .ok (.listing files)
  createOrUpdateFileContents := fun _ => .ok ()

/-- An oracle on which every Contents call returns the given single file. -/
def fileApi (f : GitHubFileResponse) : Api where
  listBranches := fun _ => .ok []
  getContent := fun _ => .ok (.single f)
  createOrUpdateFileContents := fun _ => .ok ()

/-- A directory entry. -/
def docsDir : RepoFile where
  name := "docs"
  path := "docs"
  type := .dir
  size := none
  sha := "d1d1d1"

/-- The `content` directory entry at the repository root. -/
def contentDir : RepoFile where
  name := "content"
  path := "content"
  type := .dir
  size := none
  sha := "c0c0c0"

/-- A single-file Contents response (base64 of `Hello`). -/
def readmeFile : GitHubFileResponse where
  name := "README.md"
  path := "content/README.md"
  type := .file
  content := some "SGVsbG8="
  encoding := some "base64"
  size := 5
  sha := "abc123"

/-- The snapshot the component builds from `readmeFile`. -/
def selectedReadme : FileContent := fileContentOfResponse readmeFile

/-- A state in the middle of editing `selectedReadme`. -/
def editingState : ExplorerState :=
  { initState with
      selectedFile := some selectedReadme
      isEditing := true
      editedContent := "Hello world"
      commitMessage := "Update README.md" }

/-- A state with a populated tree, cache and selection. -/
def cachedState : ExplorerState :=
  { initState with
      files := [contentDir]
      expandedFolders := ["content"]
      folderContents := [("content", [docsDir])]
      selectedFile := some selectedReadme }

/-! ### Lemmas about the set and map models -/

theorem setHas_iff (e : List String) (q : String) : setHas e q = true ↔ q ∈ e :=
  List.elem_iff

theorem setHas_setAdd (e : List String) (p q : String) :
    setHas (setAdd e p) q = true ↔ (q = p ∨ q ∈ e) := by
  unfold setAdd
  split
  case isTrue h =>
    rw [setHas_iff]
    constructor
    · exact Or.inr
    · rintro (rfl | hq)
      · exact (setHas_iff e q).mp h
      · exact hq
  case isFalse h =>
    rw [setHas_iff]
    simp [List.mem_append, or_comm]

theorem setHas_setDelete (e : List String) (p q : String) :
    setHas (setDelete e p) q = true ↔ (q ∈ e ∧ q ≠ p) := by
  unfold setDelete
  rw [setHas_iff]
  simp [List.mem_filter]

theorem mem_setAdd (e : List String) (p q : String) : q ∈ setAdd e p ↔ q = p ∨ q ∈ e := by
  unfold setAdd
  split
  case isTrue h =>
    constructor
    · exact Or.inr
    · rintro (rfl | hq)
      · exact (setHas_iff e q).mp h
      · exact hq
  case isFalse h => simp [List.mem_append, or_comm]

theorem mem_setDelete (e : List String) (p q : String) : q ∈ setDelete e p ↔ q ∈ e ∧ q ≠ p := by
  simp [setDelete, List.mem_filter]

theorem mapHas_iff (m : List (String × List RepoFile)) (k : String) :
    mapHas m k = true ↔ ∃ p ∈ m, p.1 = k := by
  simp [mapHas, List.any_eq_true]

theorem mapHas_mapSet (m : List (String × List RepoFile)) (k : String)
    (v : List RepoFile) (q : String) :
    mapHas (mapSet m k v) q = true ↔ (q = k ∨ mapHas m q = true) := by
  unfold mapSet
  split
  case isTrue h =>
    rw [mapHas_iff] at h ⊢
    rw [mapHas_iff]
    constructor
    · rintro ⟨p, hp, hpq⟩
      rw [List.mem_map] at hp
      obtain ⟨p0, hp0, rfl⟩ := hp
      by_cases hk : (p0.1 == k) = true
      · rw [if_pos hk] at hpq
        exact Or.inl hpq.symm
      · rw [if_neg hk] at hpq
        exact Or.inr ⟨p0, hp0, hpq⟩
    · rintro (rfl | ⟨p0, hp0, hpq⟩)
      · obtain ⟨pk, hpk, hpkk⟩ := h
        refine ⟨(q, v), ?_, rfl⟩
        rw [List.mem_map]
        exact ⟨pk, hpk, by rw [if_pos (by simp [hpkk])]⟩
      · by_cases hk : (p0.1 == k) = true
        · refine ⟨(k, v), ?_, ?_⟩
          · rw [List.mem_map]
            exact ⟨p0, hp0, by rw [if_pos hk]⟩
          · rw [beq_iff_eq] at hk
            exact hk ▸ hpq
        · refine ⟨p0, ?_, hpq⟩
          rw [List.mem_map]
          exact ⟨p0, hp0, by rw [if_neg hk]⟩
  case isFalse h =>
    rw [mapHas_iff, mapHas_iff]
    constructor
    · rintro ⟨p, hp, hpq⟩
      rw [List.mem_append] at hp
      rcases hp with hp | hp
      · exact Or.inr ⟨p, hp, hpq⟩
      · rw [List.mem_singleton] at hp
        subst hp
        exact Or.inl hpq.symm
    · rintro (rfl | ⟨p, hp, hpq⟩)
      · exact ⟨(q, v), by simp, rfl⟩
      · exact ⟨p, List.mem_append.mpr (Or.inl hp), hpq⟩

/-! ### Shape lemmas about the operations -/

theorem fetchFolderContents_trace (cfg : Config) (api : Api) (s : ExplorerState) (p : String) :
    (fetchFolderContents cfg api s p).2 =
      [Request.getContent (authOf cfg)
        { owner := cfg.owner, repo := cfg.repo, path := p, ref := s.selectedBranch }] := by
  simp only [fetchFolderContents]
  split <;> rfl

theorem fetchFolderContents_files (cfg : Config) (api : Api) (s : ExplorerState) (p : String) :
    (fetchFolderContents cfg api s p).1.files = s.files := by
  simp only [fetchFolderContents]
  split <;> rfl

theorem fetchFolderContents_expandedFolders (cfg : Config) (api : Api) (s : ExplorerState)
    (p : String) : (fetchFolderContents cfg api s p).1.expandedFolders = s.expandedFolders := by
  simp only [fetchFolderContents]
  split <;> rfl

theorem fetchFolderContents_error (cfg : Config) (api : Api) (s : ExplorerState) (p : String) :
    (fetchFolderContents cfg api s p).1.error = s.error := by
  simp only [fetchFolderContents]
  split <;> rfl

theorem fetchFolderContents_selectedFile (cfg : Config) (api : Api) (s : ExplorerState)
    (p : String) : (fetchFolderContents cfg api s p).1.selectedFile = s.selectedFile := by
  simp only [fetchFolderContents]
  split <;> rfl

theorem fetchFolderContents_cache_mono (cfg : Config) (api : Api) (s : ExplorerState)
    (p k : String) (h : mapHas s.folderContents k = true) :
    mapHas (fetchFolderContents cfg api s p).1.folderContents k = true := by
  simp only [fetchFolderContents]
  split
  · rw [mapHas_mapSet]
    exact Or.inr h
  · exact h
  · exact h

theorem fetchFolderContents_caches (cfg : Config) (api : Api) (s : ExplorerState)
    (p : String) (fs : List RepoFile)
    (h : api.getContent
      { owner := cfg.owner
        repo := cfg.repo
        path := p
        ref := s.selectedBranch } = .ok (.listing fs)) :
    mapHas (fetchFolderContents cfg api s p).1.folderContents p = true := by
  simp only [fetchFolderContents, h]
  rw [mapHas_mapSet]
  exact Or.inl rfl

theorem toggleFolder_expandedFolders (cfg : Config) (api : Api) (s : ExplorerState)
    (p : String) :
    (toggleFolder cfg api s p).1.expandedFolders =
      if setHas s.expandedFolders p = true then setDelete s.expandedFolders p
      else setAdd s.expandedFolders p := by
  simp only [toggleFolder]
  split
  · rfl
  · split
    · rfl
    · rfl

theorem toggleFolder_trace_nil (cfg : Config) (api : Api) (s : ExplorerState) (p : String)
    (h : setHas s.expandedFolders p = true ∨ mapHas s.folderContents p = true) :
    (toggleFolder cfg api s p).2 = [] := by
  simp only [toggleFolder]
  split
  · rfl
  · split
    · rfl
    · rcases h with h | h <;> simp_all

theorem toggleFolder_trace_fetch (cfg : Config) (api : Api) (s : ExplorerState) (p : String)
    (h1 : ¬ setHas s.expandedFolders p = true) (h2 : ¬ mapHas s.folderContents p = true) :
    (toggleFolder cfg api s p).2 =
      [Request.getContent (authOf cfg)
        { owner := cfg.owner, repo := cfg.repo, path := p, ref := s.selectedBranch }] := by
  simp only [toggleFolder, if_neg h1, if_neg h2]
  exact fetchFolderContents_trace cfg api s p

theorem toggleFolder_cache_mono (cfg : Config) (api : Api) (s : ExplorerState) (p k : String)
    (h : mapHas s.folderContents k = true) :
    mapHas (toggleFolder cfg api s p).1.folderContents k = true := by
  simp only [toggleFolder]
  split
  · exact h
  · split
    · exact h
    · exact fetchFolderContents_cache_mono cfg api s p k h

theorem toggleFolder_selectedFile (cfg : Config) (api : Api) (s : ExplorerState) (p : String) :
    (toggleFolder cfg api s p).1.selectedFile = s.selectedFile := by
  simp only [toggleFolder]
  split
  · rfl
  · split
    · rfl
    · exact fetchFolderContents_selectedFile cfg api s p

theorem toggleFolder_files (cfg : Config) (api : Api) (s : ExplorerState) (p : String) :
    (toggleFolder cfg api s p).1.files = s.files := by
  simp only [toggleFolder]
  split
  · rfl
  · split
    · rfl
    · exact fetchFolderContents_files cfg api s p

theorem toggleFolder_caches (cfg : Config) (api : Api) (s : ExplorerState) (p : String)
    (fs : List RepoFile)
    (hapi : api.getContent
      { owner := cfg.owner
        repo := cfg.repo
        path := p
        ref := s.selectedBranch } = .ok (.listing fs))
    (h1 : ¬ setHas s.expandedFolders p = true) (h2 : ¬ mapHas s.folderContents p = true) :
    mapHas (toggleFolder cfg api s p).1.folderContents p = true := by
  simp only [toggleFolder, if_neg h1, if_neg h2]
  exact fetchFolderContents_caches cfg api s p fs hapi

theorem countFetches_append (p : String) (t1 t2 : List Request) :
    countFetches p (t1 ++ t2) = countFetches p t1 + countFetches p t2 := by
  simp [countFetches, List.filter_append]

theorem countFetches_toggle_ne (cfg : Config) (api : Api) (s : ExplorerState) (p k : String)
    (hne : k ≠ p) : countFetches k (toggleFolder cfg api s p).2 = 0 := by
  by_cases h1 : setHas s.expandedFolders p = true
  · rw [toggleFolder_trace_nil cfg api s p (Or.inl h1)]
    rfl
  · by_cases h2 : mapHas s.folderContents p = true
    · rw [toggleFolder_trace_nil cfg api s p (Or.inr h2)]
      rfl
    · rw [toggleFolder_trace_fetch cfg api s p h1 h2]
      have hpk : (p == k) = false := beq_eq_false_iff_ne.mpr (Ne.symm hne)
      simp [countFetches, fetchesPath, List.filter, hpk]

theorem toggleMany_cached_no_fetch (cfg : Config) (api : Api) (ps : List String) :
    ∀ s k, mapHas s.folderContents k = true →
      countFetches k (toggleMany cfg api s ps).2 = 0 ∧
      mapHas (toggleMany cfg api s ps).1.folderContents k = true := by
  induction ps with
  | nil => exact fun s k h => ⟨rfl, h⟩
  | cons p ps ih =>
      intro s k h
      simp only [toggleMany]
      rw [countFetches_append]
      have hmono := toggleFolder_cache_mono cfg api s p k h
      have hrest := ih (toggleFolder cfg api s p).1 k hmono
      have hhead : countFetches k (toggleFolder cfg api s p).2 = 0 := by
        by_cases hkp : k = p
        · subst hkp
          rw [toggleFolder_trace_nil cfg api s k (Or.inr h)]
          rfl
        · exact countFetches_toggle_ne cfg api s p k hkp
      exact ⟨by rw [hhead, hrest.1], hrest.2⟩

theorem toggleMany_at_most_one_fetch (cfg : Config) (api : Api) (k : String)
    (hapi : ∀ q, ∃ fs, api.getContent q = .ok (.listing fs)) (ps : List String) :
    ∀ s, countFetches k (toggleMany cfg api s ps).2 ≤ 1 := by
  induction ps with
  | nil => intro s; simp [toggleMany, countFetches]
  | cons p ps ih =>
      intro s
      simp only [toggleMany]
      rw [countFetches_append]
      by_cases hkp : k = p
      · subst hkp
        by_cases hc : setHas s.expandedFolders k = true ∨ mapHas s.folderContents k = true
        · rw [toggleFolder_trace_nil cfg api s k hc]
          simpa [countFetches] using ih (toggleFolder cfg api s k).1
        · push_neg at hc
          obtain ⟨h1, h2⟩ := hc
          rw [toggleFolder_trace_fetch cfg api s k h1 h2]
          have hone : countFetches k
              [Request.getContent (authOf cfg)
                { owner := cfg.owner, repo := cfg.repo, path := k, ref := s.selectedBranch }] = 1 := by
            simp [countFetches, fetchesPath, List.filter]
          obtain ⟨fs, hfs⟩ := hapi
            { owner := cfg.owner, repo := cfg.repo, path := k, ref := s.selectedBranch }
          have hcached := toggleFolder_caches cfg api s k fs hfs h1 h2
          have hrest := (toggleMany_cached_no_fetch cfg api ps (toggleFolder cfg api s k).1 k
            hcached).1
          omega
      · rw [countFetches_toggle_ne cfg api s p k hkp]
        simpa [countFetches] using ih (toggleFolder cfg api s p).1

theorem toggleFolder_toggleFolder_expanded (cfg : Config) (api : Api) (s : ExplorerState)
    (p q : String) :
    setHas (toggleFolder cfg api (toggleFolder cfg api s p).1 p).1.expandedFolders q =
      setHas s.expandedFolders q := by
  rw [toggleFolder_expandedFolders, toggleFolder_expandedFolders]
  by_cases hp : setHas s.expandedFolders p = true
  · simp only [if_pos hp]
    have hdel : ¬ setHas (setDelete s.expandedFolders p) p = true := by
      rw [setHas_setDelete]
      simp
    simp only [if_neg hdel]
    rw [Bool.eq_iff_iff, setHas_setAdd, setHas_iff, mem_setDelete]
    rcases eq_or_ne q p with rfl | hqp
    · simp [(setHas_iff s.expandedFolders q).mp hp]
    · simp [hqp]
  · simp only [if_neg hp]
    have hadd : setHas (setAdd s.expandedFolders p) p = true := by
      rw [setHas_setAdd]
      exact Or.inl rfl
    simp only [if_pos hadd]
    rw [Bool.eq_iff_iff, setHas_setDelete, setHas_iff, mem_setAdd]
    rcases eq_or_ne q p with rfl | hqp
    · simp
      intro hmem
      exact hp ((setHas_iff s.expandedFolders q).mpr hmem)
    · simp [hqp]

theorem fetchBranches_trace_length (cfg : Config) (api : Api) (s : ExplorerState) :
    (fetchBranches cfg api s).2.length = 1 := by
  simp only [fetchBranches]
  split <;> rfl

theorem fetchFileContent_trace_length (cfg : Config) (api : Api) (s : ExplorerState)
    (p : String) : (fetchFileContent cfg api s p).2.length = 1 := by
  simp only [fetchFileContent]
  split <;> rfl

theorem toggleFolder_trace_length (cfg : Config) (api : Api) (s : ExplorerState)
    (p : String) : (toggleFolder cfg api s p).2.length ≤ 1 := by
  simp only [toggleFolder]
  split
  · simp
  · split
    · simp
    · rw [fetchFolderContents_trace]
      simp

theorem fetchRepoContents_trace_length (cfg : Config) (api : Api) (s : ExplorerState)
    (p : String) : (fetchRepoContents cfg api s p).2.length ≤ 2 := by
  simp only [fetchRepoContents]
  split
  · split
    · split
      · simp [fetchFolderContents_trace]
      · simp
    · simp
  · split
    · simp [fetchFileContent_trace_length]
    · simp
  · simp

theorem saveFileContent_trace_length (cfg : Config) (api : Api) (s : ExplorerState)
    (mdxEditor : Option String) : (saveFileContent cfg api s mdxEditor).2.length ≤ 2 := by
  simp only [saveFileContent]
  split
  · simp
  · split
    · simp
    · split
      · simp
      · split
        · simp [fetchFileContent_trace_length]
        · simp

/-! ### Claim theorems -/

/-- Claim C1: for every save of the selected file, the commit operation sends
the edited content base64-encoded and includes the file's previously fetched
content hash (SHA) as an optimistic-concurrency precondition in the PUT
create-or-update request: the first request of the save trace is the
createOrUpdateFileContents call carrying `btoa` of the content being saved
and the selected file's stored `sha`. -/
theorem save_commits_base64_content_with_sha (cfg : Config) (api : Api)
    (s : ExplorerState) (mdxEditor : Option String) (file : FileContent)
    (hsel : s.selectedFile = some file) (htok : ¬ cfg.token = "")
    (hmsg : ¬ jsTrim s.commitMessage = "") :
    ∃ rest, (saveFileContent cfg api s mdxEditor).2 =
      Request.createOrUpdateFileContents (authOf cfg)
        { owner := cfg.owner
          repo := cfg.repo
          path := file.path
          message := s.commitMessage
          content := btoa (contentToSave s mdxEditor)
          sha := file.sha
          branch := s.selectedBranch } :: rest := by
  simp only [saveFileContent, hsel]
  rw [if_neg htok, if_neg hmsg]
  split
  · exact ⟨_, rfl⟩
  · exact ⟨_, rfl⟩

/-- Witness for the C1 theorem at a concrete editing session. -/
theorem save_commits_base64_content_with_sha_witness :
    ∃ rest, (saveFileContent testCfg (fileApi readmeFile) editingState none).2 =
      Request.createOrUpdateFileContents (authOf testCfg)
        { owner := testCfg.owner
          repo := testCfg.repo
          path := selectedReadme.path
          message := editingState.commitMessage
          content := btoa (contentToSave editingState none)
          sha := selectedReadme.sha
          branch := editingState.selectedBranch } :: rest :=
  save_commits_base64_content_with_sha testCfg (fileApi readmeFile) editingState none
    selectedReadme rfl (by decide) (by decide)

/-- Claim C4: the lazy file-tree loader memoizes per path: toggling a folder
whose contents are already in the folder-contents cache issues no fetch; over
any sequence of folder toggles against an API answering with directory
listings, at most one contents fetch occurs per folder path; and toggling the
same folder twice returns the expand state to its original value. -/
theorem toggleFolder_memoizes_per_path (cfg : Config) (api : Api) (s : ExplorerState)
    (p : String) (ps : List String)
    (hapi : ∀ q, ∃ fs, api.getContent q = .ok (.listing fs)) :
    (mapHas s.folderContents p = true → (toggleFolder cfg api s p).2 = []) ∧
    countFetches p (toggleMany cfg api s ps).2 ≤ 1 ∧
    (∀ q, setHas (toggleFolder cfg api (toggleFolder cfg api s p).1 p).1.expandedFolders q =
      setHas s.expandedFolders q) :=
  ⟨fun h => toggleFolder_trace_nil cfg api s p (Or.inr h),
    toggleMany_at_most_one_fetch cfg api p hapi ps s,
    fun q => toggleFolder_toggleFolder_expanded cfg api s p q⟩

/-- Witness for the C4 theorem at a concrete cache and toggle sequence. -/
theorem toggleFolder_memoizes_per_path_witness :
    (mapHas cachedState.folderContents "content" = true →
      (toggleFolder testCfg (listingApi [docsDir]) cachedState "content").2 = []) ∧
    countFetches "content"
      (toggleMany testCfg (listingApi [docsDir]) cachedState
        ["content", "docs", "content"]).2 ≤ 1 ∧
    (∀ q, setHas (toggleFolder testCfg (listingApi [docsDir])
        (toggleFolder testCfg (listingApi [docsDir]) cachedState "content").1
        "content").1.expandedFolders q =
      setHas cachedState.expandedFolders q) :=
  toggleFolder_memoizes_per_path testCfg (listingApi [docsDir]) cachedState "content"
    ["content", "docs", "content"] (fun _ => ⟨[docsDir], rfl⟩)

/-- Claim C10: if no file is selected, no token is configured, or the commit
message is blank, the save sets an error message and returns without issuing
any network request, leaving the selected file, file list, and
folder-contents cache unchanged. -/
theorem save_guards_block_without_request (cfg : Config) (api : Api)
    (s : ExplorerState) (mdxEditor : Option String)
    (h : s.selectedFile = none ∨ cfg.token = "" ∨ jsTrim s.commitMessage = "") :
    (saveFileContent cfg api s mdxEditor).2 = [] ∧
    ((saveFileContent cfg api s mdxEditor).1.error =
        some "GitHub token is required to save files" ∨
      (saveFileContent cfg api s mdxEditor).1.error = some "Commit message is required") ∧
    (saveFileContent cfg api s mdxEditor).1.selectedFile = s.selectedFile ∧
    (saveFileContent cfg api s mdxEditor).1.files = s.files ∧
    (saveFileContent cfg api s mdxEditor).1.folderContents = s.folderContents := by
  rcases hsel : s.selectedFile with _ | file
  · simp [saveFileContent, hsel]
  · rcases h with h | h | h
    · rw [hsel] at h
      cases h
    · simp [saveFileContent, hsel, h]
    · by_cases htok : cfg.token = ""
      · simp [saveFileContent, hsel, htok]
      · simp [saveFileContent, hsel, htok, h]

/-- Witness for the C10 theorem: the initial state has no selected file and a
blank commit message. -/
theorem save_guards_block_without_request_witness :
    (saveFileContent testCfg (failApi .other) initState none).2 = [] ∧
    ((saveFileContent testCfg (failApi .other) initState none).1.error =
        some "GitHub token is required to save files" ∨
      (saveFileContent testCfg (failApi .other) initState none).1.error =
        some "Commit message is required") ∧
    (saveFileContent testCfg (failApi .other) initState none).1.selectedFile =
      initState.selectedFile ∧
    (saveFileContent testCfg (failApi .other) initState none).1.files = initState.files ∧
    (saveFileContent testCfg (failApi .other) initState none).1.folderContents =
      initState.folderContents :=
  save_guards_block_without_request testCfg (failApi .other) initState none (Or.inl rfl)

/-- Claim C9: when the root directory listing is fetched, only a directory
named `content` is kept in the displayed file list (the first such entry) and
it is auto-expanded; when the root listing has no directory named `content`,
the file list becomes empty and the dedicated error message is set. -/
theorem root_fetch_filters_content_folder (cfg : Config) (api : Api) (s : ExplorerState)
    (files : List RepoFile)
    (hapi : api.getContent
      { owner := cfg.owner
        repo := cfg.repo
        path := ""
        ref := s.selectedBranch } = .ok (.listing files)) :
    (∀ cf, files.find? (fun f => f.name == "content" && f.type == FileType.dir) = some cf →
      (fetchRepoContents cfg api s "").1.files = [cf] ∧
      (fetchRepoContents cfg api s "").1.expandedFolders = ["content"]) ∧
    (files.find? (fun f => f.name == "content" && f.type == FileType.dir) = none →
      (fetchRepoContents cfg api s "").1.files = [] ∧
      (fetchRepoContents cfg api s "").1.error =
        some "No \"content\" folder found in this repository") := by
  constructor
  · intro cf hcf
    simp only [fetchRepoContents, hapi, hcf]
    constructor
    · simp [fetchFolderContents_files]
    · simp [fetchFolderContents_expandedFolders]
  · intro hcf
    simp [fetchRepoContents, hapi, hcf]

/-- Witness for the C9 theorem at a concrete root listing that contains the
`content` directory after another entry. -/
theorem root_fetch_filters_content_folder_witness :
    (∀ cf, [docsDir, contentDir].find?
        (fun f => f.name == "content" && f.type == FileType.dir) = some cf →
      (fetchRepoContents testCfg (listingApi [docsDir, contentDir]) initState "").1.files =
        [cf] ∧
      (fetchRepoContents testCfg (listingApi [docsDir, contentDir])
        initState "").1.expandedFolders = ["content"]) ∧
    ([docsDir, contentDir].find?
        (fun f => f.name == "content" && f.type == FileType.dir) = none →
      (fetchRepoContents testCfg (listingApi [docsDir, contentDir]) initState "").1.files =
        [] ∧
      (fetchRepoContents testCfg (listingApi [docsDir, contentDir]) initState "").1.error =
        some "No \"content\" folder found in this repository") :=
  root_fetch_filters_content_folder testCfg (listingApi [docsDir, contentDir]) initState
    [docsDir, contentDir] rfl

/-- Claim C2 counterexample: expanding the uncached folder `docs` against an
API whose Contents call throws issues a network call that fails, yet the
error banner state stays empty: `fetchFolderContents` only logs the failure
to the console. -/
theorem folder_fetch_failure_not_surfaced :
    (toggleFolder testCfg (failApi (.errObj "boom")) initState "docs").2 =
      [Request.getContent (authOf testCfg)
        { owner := "B0llu", repo := "ocktokit-poc", path := "docs", ref := "main" }] ∧
    (failApi (.errObj "boom")).getContent
      { owner := "B0llu", repo := "ocktokit-poc", path := "docs", ref := "main" } =
      .error (.errObj "boom") ∧
    (toggleFolder testCfg (failApi (.errObj "boom")) initState "docs").1.error = none :=
  ⟨rfl, rfl, rfl⟩

/-- Claim C2 as amended: a failed network call in `fetchBranches`,
`fetchRepoContents`, `fetchFileContent` or `saveFileContent` is caught at the
call site, converted to a human-readable message, and surfaced in the error
banner state; a failed call in `fetchFolderContents` (folder expansion) is
caught but only logged, leaving the banner unchanged. -/
theorem failed_calls_surfaced_except_folder_fetch (cfg : Config) (api : Api)
    (s : ExplorerState) (path : String) (mdxEditor : Option String) (e : JsError)
    (file : FileContent)
    (hg : ∀ q, api.getContent q = .error e)
    (hb : ∀ q, api.listBranches q = .error e)
    (hp : ∀ q, api.createOrUpdateFileContents q = .error e)
    (hsel : s.selectedFile = some file) (htok : ¬ cfg.token = "")
    (hmsg : ¬ jsTrim s.commitMessage = "") :
    (fetchBranches cfg api s).1.error = some (errMsg e "Failed to fetch branches") ∧
    (fetchRepoContents cfg api s path).1.error =
      some (errMsg e "Failed to fetch repository contents") ∧
    (fetchFileContent cfg api s path).1.error =
      some (errMsg e "Failed to fetch file content") ∧
    (saveFileContent cfg api s mdxEditor).1.error = some (errMsg e "Failed to save file") ∧
    (fetchFolderContents cfg api s path).1.error = s.error := by
  refine ⟨?_, ?_, ?_, ?_, fetchFolderContents_error cfg api s path⟩
  · simp [fetchBranches, hb]
  · simp [fetchRepoContents, hg]
  · simp [fetchFileContent, hg]
  · simp only [saveFileContent, hsel]
    rw [if_neg htok, if_neg hmsg]
    simp [hp]

/-- Witness for the amended C2 theorem against a concretely failing API. -/
theorem failed_calls_surfaced_except_folder_fetch_witness :
    (fetchBranches testCfg (failApi (.errObj "boom")) editingState).1.error =
      some (errMsg (.errObj "boom") "Failed to fetch branches") ∧
    (fetchRepoContents testCfg (failApi (.errObj "boom")) editingState "docs").1.error =
      some (errMsg (.errObj "boom") "Failed to fetch repository contents") ∧
    (fetchFileContent testCfg (failApi (.errObj "boom")) editingState "docs").1.error =
      some (errMsg (.errObj "boom") "Failed to fetch file content") ∧
    (saveFileContent testCfg (failApi (.errObj "boom")) editingState none).1.error =
      some (errMsg (.errObj "boom") "Failed to save file") ∧
    (fetchFolderContents testCfg (failApi (.errObj "boom")) editingState "docs").1.error =
      editingState.error :=
  failed_calls_surfaced_except_folder_fetch testCfg (failApi (.errObj "boom")) editingState
    "docs" none (.errObj "boom") selectedReadme (fun _ => rfl) (fun _ => rfl) (fun _ => rfl)
    rfl (by decide) (by decide)

/-- Claim C3 counterexample: a navigation (expanding the uncached folder
`docs`) retains the previously cached `content` listing, the file-tree nodes
and the selected-file snapshot instead of discarding and replacing them
wholesale. -/
theorem navigation_retains_model_state :
    (toggleFolder testCfg (listingApi [docsDir]) cachedState "docs").2 ≠ [] ∧
    mapHas (toggleFolder testCfg (listingApi [docsDir]) cachedState "docs").1.folderContents
      "content" = true ∧
    (toggleFolder testCfg (listingApi [docsDir]) cachedState "docs").1.selectedFile =
      some selectedReadme ∧
    (toggleFolder testCfg (listingApi [docsDir]) cachedState "docs").1.files =
      [contentDir] := by
  decide

/-- Claim C3 as amended: on every branch switch the expanded-folder set,
folder-contents cache, and file-content snapshot are discarded and replaced
wholesale (reset to empty); on navigation (folder expand/selection) they are
retained and updated incrementally: toggling preserves the file-tree nodes,
the selected-file snapshot, and every cached folder listing. -/
theorem branch_switch_discards_state (cfg : Config) (api : Api) (s : ExplorerState)
    (p k : String) (hbr : s.selectedBranch ≠ "") :
    (branchChangeEffect s).expandedFolders = [] ∧
    (branchChangeEffect s).folderContents = [] ∧
    (branchChangeEffect s).selectedFile = none ∧
    (toggleFolder cfg api s p).1.files = s.files ∧
    (toggleFolder cfg api s p).1.selectedFile = s.selectedFile ∧
    (mapHas s.folderContents k = true →
      mapHas (toggleFolder cfg api s p).1.folderContents k = true) := by
  refine ⟨?_, ?_, ?_, toggleFolder_files cfg api s p, toggleFolder_selectedFile cfg api s p,
    toggleFolder_cache_mono cfg api s p k⟩
  all_goals simp [branchChangeEffect, hbr]

/-- Witness for the amended C3 theorem at a concrete populated state. -/
theorem branch_switch_discards_state_witness :
    (branchChangeEffect cachedState).expandedFolders = [] ∧
    (branchChangeEffect cachedState).folderContents = [] ∧
    (branchChangeEffect cachedState).selectedFile = none ∧
    (toggleFolder testCfg (listingApi [docsDir]) cachedState "docs").1.files =
      cachedState.files ∧
    (toggleFolder testCfg (listingApi [docsDir]) cachedState "docs").1.selectedFile =
      cachedState.selectedFile ∧
    (mapHas cachedState.folderContents "content" = true →
      mapHas (toggleFolder testCfg (listingApi [docsDir])
        cachedState "docs").1.folderContents "content" = true) :=
  branch_switch_discards_state testCfg (listingApi [docsDir]) cachedState "docs" "content"
    (by decide)

/-- Claim C5: a save whose PUT succeeds (the stored content hash is still
current) refreshes the displayed file content from the API's single-file
response, exits edit mode, clears the commit message, and leaves no error. -/
theorem save_success_refreshes_and_exits_edit (cfg : Config) (api : Api)
    (s : ExplorerState) (mdxEditor : Option String) (file : FileContent)
    (g : GitHubFileResponse)
    (hsel : s.selectedFile = some file) (htok : ¬ cfg.token = "")
    (hmsg : ¬ jsTrim s.commitMessage = "")
    (hput : api.createOrUpdateFileContents
      { owner := cfg.owner
        repo := cfg.repo
        path := file.path
        message := s.commitMessage
        content := btoa (contentToSave s mdxEditor)
        sha := file.sha
        branch := s.selectedBranch } = .ok ())
    (hget : api.getContent
      { owner := cfg.owner
        repo := cfg.repo
        path := file.path
        ref := s.selectedBranch } = .ok (.single g))
    (hfile : g.type = FileType.file) :
    (saveFileContent cfg api s mdxEditor).1.selectedFile =
      some (fileContentOfResponse g) ∧
    (saveFileContent cfg api s mdxEditor).1.isEditing = false ∧
    (saveFileContent cfg api s mdxEditor).1.commitMessage = "" ∧
    (saveFileContent cfg api s mdxEditor).1.error = none ∧
    (saveFileContent cfg api s mdxEditor).1.saveLoading = false := by
  simp only [saveFileContent, hsel]
  rw [if_neg htok, if_neg hmsg]
  simp [fetchFileContent, hput, hget, hfile]

/-- Witness for the C5 theorem at a concrete successful save. -/
theorem save_success_refreshes_and_exits_edit_witness :
    (saveFileContent testCfg (fileApi readmeFile) editingState none).1.selectedFile =
      some (fileContentOfResponse readmeFile) ∧
    (saveFileContent testCfg (fileApi readmeFile) editingState none).1.isEditing = false ∧
    (saveFileContent testCfg (fileApi readmeFile) editingState none).1.commitMessage = "" ∧
    (saveFileContent testCfg (fileApi readmeFile) editingState none).1.error = none ∧
    (saveFileContent testCfg (fileApi readmeFile) editingState none).1.saveLoading = false :=
  save_success_refreshes_and_exits_edit testCfg (fileApi readmeFile) editingState none
    selectedReadme readmeFile rfl (by decide) (by decide) rfl rfl rfl

/-- Claim C6 counterexample: the save action performs two request/response
round trips, not one: the create-or-update PUT followed by the refresh GET of
the file content. -/
theorem save_issues_two_round_trips :
    ((saveFileContent testCfg (fileApi readmeFile) editingState none).2).length = 2 := by
  decide

/-- Claim C6 as amended: every user action issues its network calls
sequentially, each awaited before the next, but an action is not always a
single round trip: branch listing, folder fetch and file fetch are exactly
one request, toggling at most one, while the root contents fetch (root
listing then `content` listing, or single file then its refetch) and the
save (PUT then refresh GET) issue at most two. -/
theorem actions_round_trip_bounds (cfg : Config) (api : Api) (s : ExplorerState)
    (p : String) (mdxEditor : Option String) :
    (fetchBranches cfg api s).2.length = 1 ∧
    (fetchFolderContents cfg api s p).2.length = 1 ∧
    (fetchFileContent cfg api s p).2.length = 1 ∧
    (handleFileClick cfg api s p).2.length = 1 ∧
    (toggleFolder cfg api s p).2.length ≤ 1 ∧
    (fetchRepoContents cfg api s p).2.length ≤ 2 ∧
    (saveFileContent cfg api s mdxEditor).2.length ≤ 2 :=
  ⟨fetchBranches_trace_length cfg api s,
    by simp [fetchFolderContents_trace],
    fetchFileContent_trace_length cfg api s p,
    fetchFileContent_trace_length cfg api _ p,
    toggleFolder_trace_length cfg api s p,
    fetchRepoContents_trace_length cfg api s p,
    saveFileContent_trace_length cfg api s mdxEditor⟩

/-- Claim C7: when the API throws, the failing call is attempted exactly
once: against an all-failing API every fetch operation's trace is a single
request, and the save stops after its single failing PUT with no retry and
no recovery fetch. -/
theorem failed_calls_not_retried (cfg : Config) (api : Api) (s : ExplorerState)
    (p : String) (mdxEditor : Option String) (e : JsError) (file : FileContent)
    (hg : ∀ q, api.getContent q = .error e)
    (hb : ∀ q, api.listBranches q = .error e)
    (hp : ∀ q, api.createOrUpdateFileContents q = .error e)
    (hsel : s.selectedFile = some file) (htok : ¬ cfg.token = "")
    (hmsg : ¬ jsTrim s.commitMessage = "") :
    (fetchBranches cfg api s).2.length = 1 ∧
    (fetchRepoContents cfg api s p).2.length = 1 ∧
    (fetchFileContent cfg api s p).2.length = 1 ∧
    (fetchFolderContents cfg api s p).2.length = 1 ∧
    (saveFileContent cfg api s mdxEditor).2.length = 1 := by
  refine ⟨fetchBranches_trace_length cfg api s, ?_, fetchFileContent_trace_length cfg api s p,
    by simp [fetchFolderContents_trace], ?_⟩
  · simp [fetchRepoContents, hg]
  · simp only [saveFileContent, hsel]
    rw [if_neg htok, if_neg hmsg]
    simp [hp]

/-- Witness for the C7 theorem against a concretely failing API. -/
theorem failed_calls_not_retried_witness :
    (fetchBranches testCfg (failApi (.errObj "down")) editingState).2.length = 1 ∧
    (fetchRepoContents testCfg (failApi (.errObj "down")) editingState "docs").2.length = 1 ∧
    (fetchFileContent testCfg (failApi (.errObj "down")) editingState "docs").2.length = 1 ∧
    (fetchFolderContents testCfg (failApi (.errObj "down")) editingState "docs").2.length
      = 1 ∧
    (saveFileContent testCfg (failApi (.errObj "down")) editingState none).2.length = 1 :=
  failed_calls_not_retried testCfg (failApi (.errObj "down")) editingState "docs"
    none (.errObj "down") selectedReadme (fun _ => rfl) (fun _ => rfl) (fun _ => rfl) rfl
    (by decide) (by decide)

theorem fetchFolderContents_usesConfig (cfg : Config) (api : Api) (s : ExplorerState)
    (p : String) (r : Request) (h : r ∈ (fetchFolderContents cfg api s p).2) :
    usesConfig cfg r := by
  rw [fetchFolderContents_trace] at h
  simp at h
  subst h
  exact ⟨rfl, rfl, rfl⟩

theorem fetchBranches_usesConfig (cfg : Config) (api : Api) (s : ExplorerState)
    (r : Request) (h : r ∈ (fetchBranches cfg api s).2) : usesConfig cfg r := by
  simp only [fetchBranches] at h
  split at h <;> (simp at h; subst h; exact ⟨rfl, rfl, rfl⟩)

theorem fetchFileContent_usesConfig (cfg : Config) (api : Api) (s : ExplorerState)
    (p : String) (r : Request) (h : r ∈ (fetchFileContent cfg api s p).2) :
    usesConfig cfg r := by
  simp only [fetchFileContent] at h
  split at h <;> (simp at h; subst h; exact ⟨rfl, rfl, rfl⟩)

theorem fetchRepoContents_usesConfig (cfg : Config) (api : Api) (s : ExplorerState)
    (p : String) (r : Request) (h : r ∈ (fetchRepoContents cfg api s p).2) :
    usesConfig cfg r := by
  simp only [fetchRepoContents] at h
  split at h
  · split at h
    · split at h
      · rw [List.mem_cons] at h
        rcases h with rfl | h
        · exact ⟨rfl, rfl, rfl⟩
        · exact fetchFolderContents_usesConfig cfg api _ _ r h
      · simp at h
        subst h
        exact ⟨rfl, rfl, rfl⟩
    · simp at h
      subst h
      exact ⟨rfl, rfl, rfl⟩
  · split at h
    · rw [List.mem_cons] at h
      rcases h with rfl | h
      · exact ⟨rfl, rfl, rfl⟩
      · exact fetchFileContent_usesConfig cfg api _ _ r h
    · simp at h
      subst h
      exact ⟨rfl, rfl, rfl⟩
  · simp at h
    subst h
    exact ⟨rfl, rfl, rfl⟩

theorem toggleFolder_usesConfig (cfg : Config) (api : Api) (s : ExplorerState)
    (p : String) (r : Request) (h : r ∈ (toggleFolder cfg api s p).2) : usesConfig cfg r := by
  simp only [toggleFolder] at h
  split at h
  · simp at h
  · split at h
    · simp at h
    · exact fetchFolderContents_usesConfig cfg api s p r h

theorem saveFileContent_usesConfig (cfg : Config) (api : Api) (s : ExplorerState)
    (mdxEditor : Option String) (r : Request)
    (h : r ∈ (saveFileContent cfg api s mdxEditor).2) : usesConfig cfg r := by
  simp only [saveFileContent] at h
  split at h
  · simp at h
  · split at h
    · simp at h
    · split at h
      · simp at h
      · split at h
        · rw [List.mem_cons] at h
          rcases h with rfl | h
          · exact ⟨rfl, rfl, rfl⟩
          · exact fetchFileContent_usesConfig cfg api _ _ r h
        · simp at h
          subst h
          exact ⟨rfl, rfl, rfl⟩

/-- Claim C8: the access token and the repository owner and name are read
from environment-style variables at process start (`initConfig`) and are
fixed for the session; every request any explorer operation issues carries
exactly the configured owner and repository and authenticates with the
configured token. -/
theorem requests_use_session_config (env : Env) (api : Api) (s : ExplorerState)
    (p : String) (mdxEditor : Option String) (r : Request)
    (hmem : r ∈ (fetchBranches (initConfig env) api s).2 ∨
      r ∈ (fetchRepoContents (initConfig env) api s p).2 ∨
      r ∈ (fetchFolderContents (initConfig env) api s p).2 ∨
      r ∈ (fetchFileContent (initConfig env) api s p).2 ∨
      r ∈ (toggleFolder (initConfig env) api s p).2 ∨
      r ∈ (handleFileClick (initConfig env) api s p).2 ∨
      r ∈ (saveFileContent (initConfig env) api s mdxEditor).2) :
    usesConfig (initConfig env) r := by
  rcases hmem with h | h | h | h | h | h | h
  · exact fetchBranches_usesConfig _ api s r h
  · exact fetchRepoContents_usesConfig _ api s p r h
  · exact fetchFolderContents_usesConfig _ api s p r h
  · exact fetchFileContent_usesConfig _ api s p r h
  · exact toggleFolder_usesConfig _ api s p r h
  · exact fetchFileContent_usesConfig _ api _ p r h
  · exact saveFileContent_usesConfig _ api s mdxEditor r h

/-- Witness for the C8 theorem: the request a concrete folder toggle issues
uses the owner, repository and token from the environment. -/
theorem requests_use_session_config_witness :
    usesConfig (initConfig testEnv)
      (Request.getContent (authOf (initConfig testEnv))
        { owner := "B0llu", repo := "ocktokit-poc", path := "docs", ref := "main" }) :=
  requests_use_session_config testEnv (failApi .other) initState "docs" none
    (Request.getContent (authOf (initConfig testEnv))
      { owner := "B0llu", repo := "ocktokit-poc", path := "docs", ref := "main" })
    (Or.inr (Or.inr (Or.inr (Or.inr (Or.inl (by decide))))))

end Ocktokit
